import Mathlib

/-!
Verification of the music-mood preference tool (`script.js`).

The file shallowly embeds the data model and the operations of the script:
the fixed song catalog `SONGS`, the localStorage wrapper, the form
validator, the suggestions-page player logic (`changeTrack`, per-song play
clicks, `saveSong`), the profile-page rendering and removal logic, and the
auto-play-from-link handler.  Each definition is translated from the
JavaScript source; theorems then settle the specification claims.
-/

/-- A catalog song record, as in the `SONGS` array of the script. -/
structure Song where
  id : Nat
  title : String
  artist : String
  mood : String
  url : String
  length : Nat
deriving Repr, DecidableEq

/-- The fixed in-memory catalog, copied from the `SONGS` constant. -/
def SONGS : List Song :=
  [ { id := 1, title := "Calm Breeze", artist := "Ocean Studio", mood := "chill",
      url := "https://www.soundhelix.com/examples/mp3/SoundHelix-Song-1.mp3", length := 320 },
    { id := 2, title := "Power Run", artist := "Gym Beats", mood := "workout",
      url := "https://www.soundhelix.com/examples/mp3/SoundHelix-Song-2.mp3", length := 240 },
    { id := 3, title := "Neon Party", artist := "Clubline", mood := "party",
      url := "https://www.soundhelix.com/examples/mp3/SoundHelix-Song-3.mp3", length := 300 },
    { id := 4, title := "Focus Flow", artist := "StudyWave", mood := "focus",
      url := "https://www.soundhelix.com/examples/mp3/SoundHelix-Song-4.mp3", length := 420 },
    { id := 5, title := "Mellow Night", artist := "Midnight", mood := "chill",
      url := "https://www.soundhelix.com/examples/mp3/SoundHelix-Song-5.mp3", length := 360 } ]

/-- A saved song: a song's fields plus the save timestamp, as built by
`saveSong` via `{ ...song, savedAt: ... }`. -/
structure SavedSong where
  id : Nat
  title : String
  artist : String
  mood : String
  url : String
  length : Nat
  savedAt : String
deriving Repr, DecidableEq

/-- `{ ...song, savedAt: now }`: copy the song's fields and stamp the time. -/
def mkSavedSong (song : Song) (now : String) : SavedSong :=
  { id := song.id, title := song.title, artist := song.artist, mood := song.mood,
    url := song.url, length := song.length, savedAt := now }

/-- The persisted user preferences record built on form submit. -/
structure UserPrefs where
  name : String
  email : String
  mood : String
  savedAt : String
deriving Repr, DecidableEq

/-- Typed view of the localStorage contents used by the script: the
`mp_user` key (a `UserPrefs` record or absent) and the `mp_saved_songs`
key (a `SavedSong` array or absent).  The JSON serialization round-trip of
well-formed records is abstracted away at this level; the string-level
behavior of `loadFromStorage` itself is modelled separately below. -/
structure Store where
  user : Option UserPrefs
  saved : Option (List SavedSong)
deriving Repr, DecidableEq

/-- `loadFromStorage(STORAGE_KEYS.SAVED, [])`: the saved-songs list, with
the empty list as fallback when the key is absent. -/
def loadSavedSongs (st : Store) : List SavedSong :=
  st.saved.getD []

/-- `saveToStorage(STORAGE_KEYS.SAVED, value)`: overwrite the saved list. -/
def saveSavedSongs (st : Store) (l : List SavedSong) : Store :=
  { st with saved := some l }

/-- `loadFromStorage(STORAGE_KEYS.USER)`: the preferences, `null` fallback. -/
def loadUser (st : Store) : Option UserPrefs :=
  st.user

/-- The profile page's clear-all handler: `localStorage.removeItem(STORAGE_KEYS.SAVED)`. -/
def clearSavedClick (st : Store) : Store :=
  { st with saved := none }

/-- `saveSong(song)` from the suggestions page: load the saved list, no-op
if some entry already has the song's id (`saved.some(s => s.id === song.id)`),
otherwise push the stamped copy and persist. -/
def saveSong (song : Song) (now : String) (st : Store) : Store :=
  let saved := loadSavedSongs st
  if saved.any (fun s => s.id == song.id) then st
  else saveSavedSongs st (saved ++ [mkSavedSong song now])

/-- The Remove handler of a profile entry with id `targetId`:
`saved.filter(x => x.id !== s.id)` persisted back, where `saved` is the
list loaded from storage at render time. -/
def removeClick (st : Store) (targetId : Nat) : Store :=
  saveSavedSongs st ((loadSavedSongs st).filter (fun x => x.id != targetId))

/-- What the profile page shows: the placeholder line when the loaded list
is empty, otherwise one entry per saved song. -/
inductive ProfileView where
  | placeholder : ProfileView
  | entries (songs : List SavedSong) : ProfileView
deriving Repr, DecidableEq

/-- `renderSavedSongs()`: re-read the persisted list and render it, with a
placeholder when it is empty. -/
def renderSavedSongs (st : Store) : ProfileView :=
  let saved := loadSavedSongs st
  if saved.length == 0 then ProfileView.placeholder
  else ProfileView.entries saved

/-- The displayed list of the suggestions page:
`user && user.mood ? SONGS.filter(s => s.mood === user.mood) : SONGS.slice()`.
JavaScript truthiness of `user.mood` makes the empty string fall through to
the whole catalog. -/
def chosenList (user : Option UserPrefs) : List Song :=
  match user with
  | some u => if u.mood != "" then SONGS.filter (fun s => s.mood == u.mood) else SONGS
  | none => SONGS

/-- `changeTrack(dir)` acting on the captured `currentIndex` (−1 encodes the
unset state): select index 0 when unset, otherwise
`(currentIndex + dir + SONGS.length) % SONGS.length` with JavaScript's
truncating `%` (`Int.tmod`). -/
def changeTrack (dir : Int) (currentIndex : Int) : Int :=
  if currentIndex == -1 then 0
  else Int.tmod (currentIndex + dir + (SONGS.length : Int)) (SONGS.length : Int)

/-- JavaScript `Array.prototype.findIndex`: first index satisfying the
predicate, −1 when none does. -/
def findIndexJS (p : Song → Bool) (l : List Song) : Int :=
  match l.findIdx? p with
  | some i => (i : Int)
  | none => -1

/-- The per-song Play click: `currentIndex = SONGS.findIndex(x => x.id === song.id)`. -/
def playClickIndex (song : Song) : Int :=
  findIndexJS (fun x => x.id == song.id) SONGS

/-- The play actions of the suggestions page that touch `currentIndex`:
a per-song Play click, the Prev/Next buttons, and the auto-advance on the
audio `ended` event (which calls `changeTrack(1)`). -/
inductive PlayerEvent where
  | playClick (song : Song)
  | nextClick
  | prevClick
  | ended
deriving Repr, DecidableEq

/-- The effect of each play action on `currentIndex`. -/
def stepIndex (e : PlayerEvent) (currentIndex : Int) : Int :=
  match e with
  | PlayerEvent.playClick song => playClickIndex song
  | PlayerEvent.nextClick => changeTrack 1 currentIndex
  | PlayerEvent.prevClick => changeTrack (-1) currentIndex
  | PlayerEvent.ended => changeTrack 1 currentIndex

/-- The whitespace characters of JavaScript's `\s` (ASCII portion), used to
model `\S` in the email regular expression and `String.prototype.trim`. -/
def jsWhitespace (c : Char) : Bool :=
  c == ' ' || c == '\t' || c == '\n' || c == '\r' ||
  c == Char.ofNat 11 || c == Char.ofNat 12

/-- `String.prototype.trim`: strip leading and trailing whitespace. -/
def trimJS (s : String) : String :=
  String.mk ((((s.data.dropWhile jsWhitespace).reverse).dropWhile jsWhitespace).reverse)

/-- `/^\S+@\S+\.\S+$/.test(email)`: the string has no whitespace character
and some position `i ≥ 1` holds `@` while some position `j ≥ i + 2` with at
least one character after it holds `.` (since `\S` also matches `@` and `.`,
the three runs impose nothing beyond these anchors). -/
def emailTest (s : String) : Bool :=
  let cs := s.data
  cs.all (fun c => !jsWhitespace c) &&
  (List.range cs.length).any (fun i =>
    (List.range cs.length).any (fun j =>
      decide (1 ≤ i) && decide (i + 2 ≤ j) && decide (j + 2 ≤ cs.length) &&
      (cs.getD i ' ' == '@') && (cs.getD j ' ' == '.')))

/-- The regular expression's language, stated as the specification reads it:
a decomposition into one or more non-space characters, `@`, one or more
non-space characters, `.`, one or more non-space characters. -/
def EmailShape (s : String) : Prop :=
  ∃ a b c : List Char, a ≠ [] ∧ b ≠ [] ∧ c ≠ [] ∧
    (∀ ch ∈ a, jsWhitespace ch = false) ∧
    (∀ ch ∈ b, jsWhitespace ch = false) ∧
    (∀ ch ∈ c, jsWhitespace ch = false) ∧
    s.data = a ++ '@' :: (b ++ '.' :: c)

/-- The `{ok, message}` object returned by `validateForm`. -/
structure ValidationResult where
  ok : Bool
  message : Option String
deriving Repr, DecidableEq

/-- `validateForm(name, email, mood)`: basic checks, first failure wins.
`!name`, `!email`, `!mood` are JavaScript falsiness of a string, i.e.
equality with the empty string. -/
def validateForm (name email mood : String) : ValidationResult :=
  if name == "" || (trimJS name).length < 2 then
    { ok := false, message := some "Name must be at least 2 characters." }
  else if email == "" || !(emailTest email) then
    { ok := false, message := some "Please enter a valid email." }
  else if mood == "" then
    { ok := false, message := some "Please pick a mood/type." }
  else { ok := true, message := none }

/-- The slice of page state touched by the auto-play handler: the audio
element's source, the now-playing text, and whether `play()` was called. -/
structure MediaState where
  src : Option String
  nowText : Option String
  playAttempted : Bool
deriving Repr, DecidableEq

/-- Default song for total list indexing; never selected by the handlers,
which index only after a successful `findIndex`. -/
def fallbackSong : Song :=
  { id := 0, title := "", artist := "", mood := "", url := "", length := 0 }

/-- The delayed `attemptPlay` closure of `checkAutoPlayOnLoad`: look up the
query id in `SONGS` via `findIndex(s => String(s.id) === String(playId))`;
on a hit, when the audio element exists set its source, update the
now-playing text when that element exists, and call `play()` with the
rejection swallowed (`.catch(()=>{})`); otherwise change nothing. -/
def attemptPlay (playId : String) (hasAudio hasNow : Bool) (m : MediaState) : MediaState :=
  let idx := findIndexJS (fun s => toString s.id == playId) SONGS
  if idx != -1 then
    if hasAudio then
      let song := (SONGS.get? idx.toNat).getD fallbackSong
      { src := some song.url,
        nowText := if hasNow then some ("Playing: " ++ song.title) else m.nowText,
        playAttempted := true }
    else m
  else m

/-- Outcome of a JavaScript expression: a returned value or a thrown error. -/
inductive JsOutcome (α : Type) where
  | ret (v : α)
  | thrown (msg : String)
deriving Repr, DecidableEq

/-- JSON values, for modelling the host `JSON.parse`. -/
inductive Json where
  | null : Json
  | bool (b : Bool) : Json
  | num (n : Int) : Json
  | str (s : String) : Json
  | arr (elems : List Json) : Json
  | obj (fields : List (String × Json)) : Json

def braceOpenChar : Char := Char.ofNat 123

def braceCloseChar : Char := Char.ofNat 125

/-- Skip JSON whitespace. -/
def skipWs : List Char → List Char
  | [] => []
  | c :: rest =>
    if c == ' ' || c == '\t' || c == '\n' || c == '\r' then skipWs rest
    else c :: rest

/-- Resolve a character escape inside a JSON string literal. -/
def escChar (c : Char) : Char :=
  if c == 'n' then '\n' else if c == 't' then '\t' else if c == 'r' then '\r' else c

/-- Parse the body of a JSON string literal after its opening quote,
returning the characters and the remainder after the closing quote. -/
def parseStringBody : List Char → Option (List Char × List Char)
  | [] => none
  | c :: rest =>
    if c == '"' then some ([], rest)
    else if c == '\\' then
      match rest with
      | [] => none
      | e :: rest2 =>
        match parseStringBody rest2 with
        | some (s, r) => some (escChar e :: s, r)
        | none => none
    else
      match parseStringBody rest with
      | some (s, r) => some (c :: s, r)
      | none => none

/-- Take a maximal run of decimal digits. -/
def takeDigits : List Char → (List Char × List Char)
  | [] => ([], [])
  | c :: rest =>
    if c.isDigit then
      let p := takeDigits rest
      (c :: p.1, p.2)
    else ([], c :: rest)

/-- Numeric value of a digit run. -/
def digitsVal (ds : List Char) : Nat :=
  ds.foldl (fun acc c => acc * 10 + (c.toNat - 48)) 0

mutual

/-- Fuel-indexed recursive-descent parser for a JSON value; models the
grammar accepted by the host `JSON.parse` (numbers restricted to integer
literals, string escapes resolved one character at a time). -/
def parseValue : Nat → List Char → Option (Json × List Char)
  | 0, _ => none
  | Nat.succ fuel, cs =>
    match skipWs cs with
    | [] => none
    | c :: rest =>
      if c == 'n' then
        match rest with
        | 'u' :: 'l' :: 'l' :: r => some (Json.null, r)
        | _ => none
      else if c == 't' then
        match rest with
        | 'r' :: 'u' :: 'e' :: r => some (Json.bool true, r)
        | _ => none
      else if c == 'f' then
        match rest with
        | 'a' :: 'l' :: 's' :: 'e' :: r => some (Json.bool false, r)
        | _ => none
      else if c == '"' then
        match parseStringBody rest with
        | some (s, r) => some (Json.str (String.mk s), r)
        | none => none
      else if c == '-' then
        match takeDigits rest with
        | ([], _) => none
        | (ds, r) => some (Json.num (-(digitsVal ds : Int)), r)
      else if c.isDigit then
        match takeDigits (c :: rest) with
        | ([], _) => none
        | (ds, r) => some (Json.num ((digitsVal ds : Int)), r)
      else if c == '[' then
        match skipWs rest with
        | ']' :: r => some (Json.arr [], r)
        | _ =>
          match parseElems fuel rest with
          | some (xs, r) => some (Json.arr xs, r)
          | none => none
      else if c == braceOpenChar then
        match skipWs rest with
        | [] => none
        | d :: r =>
          if d == braceCloseChar then some (Json.obj [], r)
          else
            match parseMembers fuel rest with
            | some (fs, r2) => some (Json.obj fs, r2)
            | none => none
      else none

/-- Parse one or more comma-separated array elements up to `]`. -/
def parseElems : Nat → List Char → Option (List Json × List Char)
  | 0, _ => none
  | Nat.succ fuel, cs =>
    match parseValue fuel cs with
    | none => none
    | some (v, r) =>
      match skipWs r with
      | ',' :: r2 =>
        match parseElems fuel r2 with
        | some (xs, r3) => some (v :: xs, r3)
        | none => none
      | ']' :: r2 => some ([v], r2)
      | _ => none

/-- Parse one or more comma-separated object members up to the closing brace. -/
def parseMembers : Nat → List Char → Option (List (String × Json) × List Char)
  | 0, _ => none
  | Nat.succ fuel, cs =>
    match skipWs cs with
    | '"' :: rest =>
      match parseStringBody rest with
      | none => none
      | some (k, r) =>
        match skipWs r with
        | ':' :: r2 =>
          match parseValue fuel r2 with
          | none => none
          | some (v, r3) =>
            match skipWs r3 with
            | [] => none
            | ',' :: r4 =>
              match parseMembers fuel r4 with
              | some (fs, r5) => some ((String.mk k, v) :: fs, r5)
              | none => none
            | d :: r4 =>
              if d == braceCloseChar then some ([(String.mk k, v)], r4) else none
        | _ => none
    | _ => none

end

/-- Model of the host `JSON.parse`: parse a full value with trailing
whitespace allowed, throwing a `SyntaxError` on malformed text. -/
def jsonParse (s : String) : JsOutcome Json :=
  match parseValue (s.length + 1) s.data with
  | some (v, rest) =>
    if (skipWs rest).isEmpty then JsOutcome.ret v else JsOutcome.thrown "SyntaxError"
  | none => JsOutcome.thrown "SyntaxError"

/-- `loadFromStorage(key, fallback)` at the string level:
`localStorage.getItem` yields `null` (absent) or the stored text, and
`raw ? JSON.parse(raw) : fallback` takes the fallback exactly when `raw` is
falsy (absent or the empty string).  The host `JSON.parse` is passed in as
`parse`, instantiated with `jsonParse` for concrete runs. -/
def loadFromStorage (parse : String → JsOutcome Json) (storage : String → Option String)
    (key : String) (fallback : Json) : JsOutcome Json :=
  match storage key with
  | none => JsOutcome.ret fallback
  | some raw => if raw == "" then JsOutcome.ret fallback else parse raw

/-- Is the outcome a thrown error? -/
def JsOutcome.isThrown {α : Type} : JsOutcome α → Bool
  | JsOutcome.ret _ => false
  | JsOutcome.thrown _ => true

/-- A sample stored preferences record with the `chill` mood, whose filtered
list (two songs) is shorter than the catalog (five songs). -/
def chillPrefs : UserPrefs :=
  { name := "Ava", email := "a@b.co", mood := "chill", savedAt := "t0" }

/-- Catalog entry with id 5 (the second `chill` song). -/
def mellowNight : Song :=
  { id := 5, title := "Mellow Night", artist := "Midnight", mood := "chill",
    url := "https://www.soundhelix.com/examples/mp3/SoundHelix-Song-5.mp3", length := 360 }

/-- Catalog entry with id 3. -/
def neonParty : Song :=
  { id := 3, title := "Neon Party", artist := "Clubline", mood := "party",
    url := "https://www.soundhelix.com/examples/mp3/SoundHelix-Song-3.mp3", length := 300 }

/-- A store with both keys absent. -/
def emptyStore : Store := { user := none, saved := none }

/-- A sample stored preferences record whose mood matches no catalog song. -/
def jazzPrefs : UserPrefs :=
  { name := "Bo", email := "b@c.de", mood := "jazz", savedAt := "t1" }

theorem loadSavedSongs_saveSavedSongs (st : Store) (l : List SavedSong) :
    loadSavedSongs (saveSavedSongs st l) = l := rfl

theorem chosenList_sublist (u : Option UserPrefs) : (chosenList u).Sublist SONGS := by
  cases u with
  | none => exact List.Sublist.refl SONGS
  | some p =>
    simp only [chosenList]
    split
    · exact List.filter_sublist SONGS
    · exact List.Sublist.refl SONGS

theorem saveSong_eq_of_any (song : Song) (n : String) (st : Store)
    (h : (loadSavedSongs st).any (fun s => s.id == song.id) = true) :
    saveSong song n st = st := by
  unfold saveSong
  simp only [h]
  rfl

theorem saveSong_eq_of_not_any (song : Song) (n : String) (st : Store)
    (h : (loadSavedSongs st).any (fun s => s.id == song.id) = false) :
    saveSong song n st = saveSavedSongs st (loadSavedSongs st ++ [mkSavedSong song n]) := by
  unfold saveSong
  simp only [h]
  rfl

/-- C1: `saveSong` is duplicate-safe: starting from any persisted list whose
ids are pairwise distinct, a second call with the same song id is a no-op
(so a call when the id is already present changes nothing), after one call
exactly one entry carries that id, and the distinct-ids invariant is
preserved. -/
theorem saveSong_unique_per_id (song : Song) (n n' : String) (st : Store)
    (hnodup : ((loadSavedSongs st).map SavedSong.id).Nodup) :
    saveSong song n' (saveSong song n st) = saveSong song n st ∧
    ((loadSavedSongs (saveSong song n st)).map SavedSong.id).count song.id = 1 ∧
    ((loadSavedSongs (saveSong song n st)).map SavedSong.id).Nodup := by
  by_cases h : (loadSavedSongs st).any (fun s => s.id == song.id) = true
  · have hmem : song.id ∈ (loadSavedSongs st).map SavedSong.id := by
      rcases List.any_eq_true.mp h with ⟨s, hs, hid⟩
      exact List.mem_map.mpr ⟨s, hs, by simpa using hid.symm⟩
    rw [saveSong_eq_of_any song n st h, saveSong_eq_of_any song n' st h]
    exact ⟨rfl, List.count_eq_one_of_mem hnodup hmem, hnodup⟩
  · have hb : (loadSavedSongs st).any (fun s => s.id == song.id) = false :=
      Bool.eq_false_iff.mpr h
    have hnm : song.id ∉ (loadSavedSongs st).map SavedSong.id := by
      intro hc
      rcases List.mem_map.mp hc with ⟨s, hs, hid⟩
      exact h (List.any_eq_true.mpr ⟨s, hs, by simp [hid]⟩)
    have hload : loadSavedSongs (saveSong song n st) =
        loadSavedSongs st ++ [mkSavedSong song n] := by
      rw [saveSong_eq_of_not_any song n st hb, loadSavedSongs_saveSavedSongs]
    have hany : (loadSavedSongs (saveSong song n st)).any (fun s => s.id == song.id) = true := by
      rw [hload]
      exact List.any_eq_true.mpr ⟨mkSavedSong song n, by simp [mkSavedSong]⟩
    refine ⟨saveSong_eq_of_any song n' (saveSong song n st) hany, ?_, ?_⟩
    · rw [hload]
      simp only [List.map_append, List.map_cons, List.map_nil, List.count_append]
      rw [List.count_eq_zero.mpr hnm]
      simp [mkSavedSong]
    · rw [hload]
      simp only [List.map_append, List.map_cons, List.map_nil]
      rw [← List.concat_eq_append]
      exact List.Nodup.concat (by simpa [mkSavedSong] using hnm) hnodup

/-- Witness for C1 at a concrete song and the empty store. -/
theorem saveSong_unique_per_id_witness :
    ((loadSavedSongs emptyStore).map SavedSong.id).Nodup ∧
    (saveSong mellowNight "t2" (saveSong mellowNight "t1" emptyStore) =
        saveSong mellowNight "t1" emptyStore ∧
      ((loadSavedSongs (saveSong mellowNight "t1" emptyStore)).map SavedSong.id).count
          mellowNight.id = 1 ∧
      ((loadSavedSongs (saveSong mellowNight "t1" emptyStore)).map SavedSong.id).Nodup) :=
  ⟨by decide, saveSong_unique_per_id mellowNight "t1" "t2" emptyStore (by decide)⟩

/-- C2 counterexample: with the stored mood `chill` the displayed list has
length 2, yet from the valid displayed index 1 `changeTrack(+1)` yields 2,
not `(1 + 1) mod 2 = 0`: the code wraps modulo the catalog length, not the
displayed list's length. -/
theorem changeTrack_not_mod_displayed :
    (0 : Int) ≤ 1 ∧ (1 : Int) < ((chosenList (some chillPrefs)).length : Int) ∧
    changeTrack 1 1 = 2 ∧
    Int.emod (1 + 1) ((chosenList (some chillPrefs)).length : Int) = 0 ∧
    changeTrack 1 1 ≠ Int.emod (1 + 1) ((chosenList (some chillPrefs)).length : Int) := by
  decide

/-- C2 amended: `changeTrack(dir)` moves an already-set `currentIndex` by
`dir` modulo the length of the full catalog `SONGS` (not the displayed
list); from the unset state it selects index 0; from the last catalog index
`changeTrack(+1)` wraps to 0 and from 0 `changeTrack(-1)` wraps to the last
catalog index. -/
theorem changeTrack_mod_catalog (dir i : Int) (hdir : dir = 1 ∨ dir = -1) :
    changeTrack dir (-1) = 0 ∧
    (0 ≤ i → i < (SONGS.length : Int) →
      changeTrack dir i = Int.emod (i + dir) (SONGS.length : Int)) ∧
    changeTrack 1 ((SONGS.length : Int) - 1) = 0 ∧
    changeTrack (-1) 0 = (SONGS.length : Int) - 1 := by
  refine ⟨by rcases hdir with rfl | rfl <;> decide, ?_, by decide, by decide⟩
  intro h0 h5
  have hlen : (SONGS.length : Int) = 5 := by decide
  rw [hlen] at h5
  interval_cases i <;> rcases hdir with rfl | rfl <;> decide

/-- Witness for the amended C2 at `dir = +1`, `currentIndex = 4`. -/
theorem changeTrack_mod_catalog_witness :
    changeTrack 1 (-1) = 0 ∧
    changeTrack 1 4 = Int.emod (4 + 1) (SONGS.length : Int) ∧
    changeTrack 1 ((SONGS.length : Int) - 1) = 0 ∧
    changeTrack (-1) 0 = (SONGS.length : Int) - 1 := by
  obtain ⟨h1, h2, h3, h4⟩ := changeTrack_mod_catalog 1 4 (Or.inl rfl)
  exact ⟨h1, h2 (by decide) (by decide), h3, h4⟩

/-- C3 counterexample: with the stored mood `chill` the displayed list has
length 2, but the per-song Play click on the id-5 song sets
`currentIndex = 4` (its position in the catalog), which is not a valid
index into the displayed collection. -/
theorem playClick_index_outside_displayed :
    mellowNight ∈ chosenList (some chillPrefs) ∧
    stepIndex (PlayerEvent.playClick mellowNight) (-1) = 4 ∧
    ((chosenList (some chillPrefs)).length : Int) = 2 ∧
    ¬ (stepIndex (PlayerEvent.playClick mellowNight) (-1) <
        ((chosenList (some chillPrefs)).length : Int)) := by
  decide

/-- C3 amended: after any play action (a Play click on a displayed song,
Prev/Next, or the `ended` auto-advance) starting from the unset state or a
valid catalog index, `currentIndex` is a valid index into the catalog
`SONGS` — the space the code actually navigates — though not necessarily
into the displayed filtered list. -/
theorem stepIndex_valid_catalog (u : Option UserPrefs) (e : PlayerEvent) (i : Int)
    (hi : i = -1 ∨ (0 ≤ i ∧ i < (SONGS.length : Int)))
    (he : ∀ song, e = PlayerEvent.playClick song → song ∈ chosenList u) :
    0 ≤ stepIndex e i ∧ stepIndex e i < (SONGS.length : Int) := by
  have hlen : (SONGS.length : Int) = 5 := by decide
  cases e with
  | playClick song =>
    have hmem : song ∈ SONGS := (chosenList_sublist u).subset (he song rfl)
    simp only [SONGS, List.mem_cons, List.not_mem_nil, or_false] at hmem
    rcases hmem with rfl | rfl | rfl | rfl | rfl <;> simp only [stepIndex] <;> decide
  | nextClick =>
    rcases hi with rfl | ⟨h0, h5⟩
    · decide
    · rw [hlen] at h5
      interval_cases i <;> decide
  | prevClick =>
    rcases hi with rfl | ⟨h0, h5⟩
    · decide
    · rw [hlen] at h5
      interval_cases i <;> decide
  | ended =>
    rcases hi with rfl | ⟨h0, h5⟩
    · decide
    · rw [hlen] at h5
      interval_cases i <;> decide

/-- Witness for the amended C3: Play click on the id-5 song from the unset
state, with the `chill` preferences stored. -/
theorem stepIndex_valid_catalog_witness :
    0 ≤ stepIndex (PlayerEvent.playClick mellowNight) (-1) ∧
    stepIndex (PlayerEvent.playClick mellowNight) (-1) < (SONGS.length : Int) :=
  stepIndex_valid_catalog (some chillPrefs) (PlayerEvent.playClick mellowNight) (-1)
    (Or.inl rfl)
    (by intro song h; injection h with h2; subst h2; decide)

/-- C4 counterexample: with malformed text (a lone open brace) stored under
the saved-songs key, `loadFromStorage` propagates the `JSON.parse` exception
instead of returning the fallback. -/
theorem loadFromStorage_throws_on_malformed :
    (loadFromStorage jsonParse
        (fun k => if k = "mp_saved_songs" then some "\x7b" else none)
        "mp_saved_songs" (Json.arr [])).isThrown = true := by
  decide

/-- C4 amended: `loadFromStorage(key, fallback)` returns the fallback when
the key is absent or the stored text is empty, and otherwise evaluates
`JSON.parse` on the stored text — returning its value when it is
well-formed and propagating its exception (not the fallback) when it is
malformed. -/
theorem loadFromStorage_cases (parse : String → JsOutcome Json)
    (storage : String → Option String) (key : String) (fallback : Json) :
    (storage key = none →
      loadFromStorage parse storage key fallback = JsOutcome.ret fallback) ∧
    (storage key = some "" →
      loadFromStorage parse storage key fallback = JsOutcome.ret fallback) ∧
    (∀ raw, storage key = some raw → raw ≠ "" →
      loadFromStorage parse storage key fallback = parse raw) := by
  refine ⟨fun h => ?_, fun h => ?_, fun raw h hne => ?_⟩
  · unfold loadFromStorage
    rw [h]
  · unfold loadFromStorage
    rw [h]
    rfl
  · unfold loadFromStorage
    rw [h]
    simp [hne]

/-- Witness for the amended C4: absent key, empty text, and a well-formed
stored array. -/
theorem loadFromStorage_cases_witness :
    loadFromStorage jsonParse (fun _ => none) "mp_user" Json.null = JsOutcome.ret Json.null ∧
    loadFromStorage jsonParse (fun _ => some "") "mp_user" Json.null = JsOutcome.ret Json.null ∧
    loadFromStorage jsonParse (fun _ => some "[]") "mp_saved_songs" (Json.arr []) =
      jsonParse "[]" :=
  ⟨(loadFromStorage_cases jsonParse (fun _ => none) "mp_user" Json.null).1 rfl,
   (loadFromStorage_cases jsonParse (fun _ => some "") "mp_user" Json.null).2.1 rfl,
   (loadFromStorage_cases jsonParse (fun _ => some "[]") "mp_saved_songs"
      (Json.arr [])).2.2 "[]" rfl (by decide)⟩

/-- The regular-expression test of the validator agrees with the
specification's decomposition reading of the email shape. -/
theorem emailTest_iff (s : String) : emailTest s = true ↔ EmailShape s := by
  constructor
  · intro h
    unfold emailTest at h
    simp only [List.all_eq_true, List.any_eq_true, List.mem_range, Bool.and_eq_true,
      decide_eq_true_eq, beq_iff_eq, Bool.not_eq_true'] at h
    obtain ⟨hws, i, hi, j, hj, hcond⟩ := h
    obtain ⟨⟨⟨⟨h1i, hij⟩, hjn⟩, hat⟩, hdot⟩ := hcond
    have hilen : i < s.data.length := by omega
    have hjlen : j < s.data.length := by omega
    have hat' : s.data[i] = '@' := by
      rw [← List.getD_eq_getElem s.data ' ' hilen]; exact hat
    have hdot' : s.data[j] = '.' := by
      rw [← List.getD_eq_getElem s.data ' ' hjlen]; exact hdot
    have hdrop : s.data.drop (i+1) =
        (s.data.drop (i+1)).take (j-(i+1)) ++ '.' :: s.data.drop (j+1) := by
      conv_lhs => rw [← List.take_append_drop (j-(i+1)) (s.data.drop (i+1))]
      congr 1
      rw [List.drop_drop]
      have hj' : (i + 1) + (j - (i+1)) = j := by omega
      rw [hj', List.drop_eq_getElem_cons hjlen, hdot']
    refine ⟨s.data.take i, (s.data.drop (i+1)).take (j-(i+1)), s.data.drop (j+1),
      ?_, ?_, ?_, ?_, ?_, ?_, ?_⟩
    · refine List.length_pos.mp ?_
      rw [List.length_take]
      omega
    · refine List.length_pos.mp ?_
      rw [List.length_take, List.length_drop]
      omega
    · refine List.length_pos.mp ?_
      rw [List.length_drop]
      omega
    · intro ch hch; exact hws ch (List.mem_of_mem_take hch)
    · intro ch hch; exact hws ch (List.mem_of_mem_drop (List.mem_of_mem_take hch))
    · intro ch hch; exact hws ch (List.mem_of_mem_drop hch)
    · calc s.data = s.data.take i ++ s.data.drop i := (List.take_append_drop i s.data).symm
        _ = s.data.take i ++ ('@' :: s.data.drop (i+1)) := by
            rw [List.drop_eq_getElem_cons hilen, hat']
        _ = s.data.take i ++
            ('@' :: ((s.data.drop (i+1)).take (j-(i+1)) ++ '.' :: s.data.drop (j+1))) := by
            rw [← hdrop]
  · rintro ⟨a, b, c, ha, hb, hc, hwa, hwb, hwc, heq⟩
    have hpa : 0 < a.length := List.length_pos.mpr ha
    have hpb : 0 < b.length := List.length_pos.mpr hb
    have hpc : 0 < c.length := List.length_pos.mpr hc
    have hlen : s.data.length = a.length + 1 + b.length + 1 + c.length := by
      rw [heq]
      simp only [List.length_append, List.length_cons]
      omega
    unfold emailTest
    simp only [List.all_eq_true, List.any_eq_true, List.mem_range, Bool.and_eq_true,
      decide_eq_true_eq, beq_iff_eq, Bool.not_eq_true']
    constructor
    · intro ch hch
      rw [heq] at hch
      simp only [List.mem_append, List.mem_cons] at hch
      rcases hch with h | rfl | h | rfl | h
      · exact hwa ch h
      · decide
      · exact hwb ch h
      · decide
      · exact hwc ch h
    · have hb1 : a.length < (a ++ '@' :: (b ++ '.' :: c)).length := by
        simp only [List.length_append, List.length_cons]
        omega
      have hgat : s.data.getD a.length ' ' = '@' := by
        rw [heq, List.getD_eq_getElem _ ' ' hb1,
          List.getElem_append_right (le_refl a.length)]
        simp
      have hre : a ++ '@' :: (b ++ '.' :: c) = (a ++ '@' :: b) ++ '.' :: c := by
        simp
      have hlab : (a ++ '@' :: b).length = a.length + 1 + b.length := by
        simp only [List.length_append, List.length_cons]
        omega
      have hb2 : a.length + 1 + b.length < ((a ++ '@' :: b) ++ '.' :: c).length := by
        simp only [List.length_append, List.length_cons]
        omega
      have hgdot : s.data.getD (a.length + 1 + b.length) ' ' = '.' := by
        rw [heq, hre, List.getD_eq_getElem _ ' ' hb2,
          List.getElem_append_right (le_of_eq hlab)]
        simp [hlab]
      exact ⟨a.length, by omega, a.length + 1 + b.length, by omega,
        ⟨⟨⟨⟨by omega, by omega⟩, by omega⟩, hgat⟩, hgdot⟩⟩

/-- C5: `validateForm` applies its rules in order with first failure
winning: it returns not-ok with the name-length message iff the name is
empty or shorter than 2 characters after trimming; otherwise not-ok with
the email message iff the email does not decompose as non-space+ `@`
non-space+ `.` non-space+; otherwise not-ok with the mood message iff the
mood is empty; otherwise ok — and `validateForm "Al" "a@b.com" "chill"`
returns ok. -/
theorem validateForm_first_failure_wins (name email mood : String) :
    (validateForm name email mood =
        { ok := false, message := some "Name must be at least 2 characters." } ↔
      (name = "" ∨ (trimJS name).length < 2)) ∧
    (validateForm name email mood =
        { ok := false, message := some "Please enter a valid email." } ↔
      (¬(name = "" ∨ (trimJS name).length < 2) ∧ ¬ EmailShape email)) ∧
    (validateForm name email mood =
        { ok := false, message := some "Please pick a mood/type." } ↔
      (¬(name = "" ∨ (trimJS name).length < 2) ∧ EmailShape email ∧ mood = "")) ∧
    (validateForm name email mood = { ok := true, message := none } ↔
      (¬(name = "" ∨ (trimJS name).length < 2) ∧ EmailShape email ∧ mood ≠ "")) ∧
    validateForm "Al" "a@b.com" "chill" = { ok := true, message := none } := by
  have hemail : (email == "" || !emailTest email) = true ↔ ¬ EmailShape email := by
    rw [← emailTest_iff]
    constructor
    · intro h hET
      rcases (by simpa using h : email = "" ∨ emailTest email = false) with rfl | hf
      · exact absurd hET (by decide)
      · rw [hET] at hf; cases hf
    · intro h
      simp only [Bool.or_eq_true, Bool.not_eq_true', beq_iff_eq]
      right
      exact Bool.eq_false_iff.mpr h
  have hname_t : (name = "" ∨ (trimJS name).length < 2) →
      (name == "" || decide ((trimJS name).length < 2)) = true := fun h => by
    rcases h with h | h <;> simp [h]
  have hname_f : ¬(name = "" ∨ (trimJS name).length < 2) →
      (name == "" || decide ((trimJS name).length < 2)) = false := fun h => by
    push_neg at h
    simp [h.1, h.2]
  by_cases h1 : name = "" ∨ (trimJS name).length < 2
  · have e : validateForm name email mood =
        { ok := false, message := some "Name must be at least 2 characters." } := by
      unfold validateForm
      rw [hname_t h1]
      rfl
    refine ⟨iff_of_true e h1,
      iff_of_false (by rw [e]; decide) (fun hc => hc.1 h1),
      iff_of_false (by rw [e]; decide) (fun hc => hc.1 h1),
      iff_of_false (by rw [e]; decide) (fun hc => hc.1 h1),
      by decide⟩
  · by_cases h2 : EmailShape email
    · have hc2 : (email == "" || !emailTest email) = false := by
        rw [Bool.eq_false_iff]
        intro hc
        exact (hemail.mp hc) h2
      by_cases h3 : mood = ""
      · have e : validateForm name email mood =
            { ok := false, message := some "Please pick a mood/type." } := by
          unfold validateForm
          rw [hname_f h1, hc2, h3]
          simp
        refine ⟨iff_of_false (by rw [e]; decide) h1,
          iff_of_false (by rw [e]; decide) (fun hc => hc.2 h2),
          iff_of_true e ⟨h1, h2, h3⟩,
          iff_of_false (by rw [e]; decide) (fun hc => hc.2.2 h3),
          by decide⟩
      · have e : validateForm name email mood = { ok := true, message := none } := by
          unfold validateForm
          rw [hname_f h1, hc2]
          have hc3 : (mood == "") = false := by simpa using h3
          rw [hc3]
          rfl
        refine ⟨iff_of_false (by rw [e]; decide) h1,
          iff_of_false (by rw [e]; decide) (fun hc => hc.2 h2),
          iff_of_false (by rw [e]; decide) (fun hc => h3 hc.2.2),
          iff_of_true e ⟨h1, h2, h3⟩,
          by decide⟩
    · have e : validateForm name email mood =
          { ok := false, message := some "Please enter a valid email." } := by
        unfold validateForm
        rw [hname_f h1, hemail.mpr h2]
        rfl
      refine ⟨iff_of_false (by rw [e]; decide) h1,
        iff_of_true e ⟨h1, h2⟩,
        iff_of_false (by rw [e]; decide) (fun hc => h2 hc.2.1),
        iff_of_false (by rw [e]; decide) (fun hc => h2 hc.2.1),
        by decide⟩

/-- C6: removing a saved song by id persists a list in which that id is
absent, every other entry is unchanged and in its original relative order
(the new list is a sublist of the old containing exactly the entries whose
id differs from the removed one), and the re-render is computed from the
newly persisted list (placeholder when it is empty, its entries otherwise). -/
theorem removeClick_spec (st : Store) (targetId : Nat)
    (hmem : targetId ∈ (loadSavedSongs st).map SavedSong.id) :
    (∀ x ∈ loadSavedSongs (removeClick st targetId), x.id ≠ targetId) ∧
    (loadSavedSongs (removeClick st targetId)).Sublist (loadSavedSongs st) ∧
    (∀ x, x ∈ loadSavedSongs (removeClick st targetId) ↔
      x ∈ loadSavedSongs st ∧ x.id ≠ targetId) ∧
    (renderSavedSongs (removeClick st targetId) = ProfileView.placeholder ∨
      renderSavedSongs (removeClick st targetId) =
        ProfileView.entries (loadSavedSongs (removeClick st targetId))) := by
  have hload : loadSavedSongs (removeClick st targetId) =
      (loadSavedSongs st).filter (fun x => x.id != targetId) := rfl
  refine ⟨?_, ?_, ?_, ?_⟩
  · intro x hx
    rw [hload] at hx
    simpa using (List.mem_filter.mp hx).2
  · rw [hload]
    exact List.filter_sublist _
  · intro x
    rw [hload, List.mem_filter]
    simp
  · simp only [renderSavedSongs]
    split
    · exact Or.inl rfl
    · exact Or.inr rfl

/-- Witness for C6: removing id 5 from a store holding exactly the saved
copy of the id-5 song. -/
theorem removeClick_spec_witness :
    (5 : Nat) ∈
      (loadSavedSongs (saveSavedSongs emptyStore [mkSavedSong mellowNight "t1"])).map
        SavedSong.id ∧
    ∀ x ∈ loadSavedSongs
        (removeClick (saveSavedSongs emptyStore [mkSavedSong mellowNight "t1"]) 5),
      x.id ≠ 5 :=
  ⟨by decide,
   (removeClick_spec (saveSavedSongs emptyStore [mkSavedSong mellowNight "t1"]) 5
      (by decide)).1⟩

/-- C7: the displayed list equals the catalog entries whose mood equals the
stored mood (a sublist of `SONGS`, so catalog order is preserved) when
preferences with a non-empty mood are stored, equals the whole catalog when
no preferences or an empty mood are stored, and is empty (without error)
when the stored mood matches no song. -/
theorem chosenList_spec (u : Option UserPrefs) :
    (∀ p, u = some p → p.mood ≠ "" →
      chosenList u = SONGS.filter (fun s => s.mood == p.mood) ∧
      (chosenList u).Sublist SONGS ∧
      ((∀ s ∈ SONGS, s.mood ≠ p.mood) → chosenList u = [])) ∧
    (u = none → chosenList u = SONGS) ∧
    (∀ p, u = some p → p.mood = "" → chosenList u = SONGS) := by
  refine ⟨?_, ?_, ?_⟩
  · rintro p rfl hm
    have hne : (p.mood != "") = true := by simpa using hm
    have he : chosenList (some p) = SONGS.filter (fun s => s.mood == p.mood) := by
      simp only [chosenList]
      rw [if_pos hne]
    refine ⟨he, he ▸ List.filter_sublist SONGS, ?_⟩
    intro hall
    rw [he, List.filter_eq_nil_iff]
    intro s hs
    simpa using hall s hs
  · rintro rfl
    rfl
  · rintro p rfl hm
    have hne : (p.mood != "") = false := by simp [hm]
    simp only [chosenList]
    rw [if_neg (by simp [hne])]

/-- Witness for C7: the `chill` filter, absent preferences, and the
zero-match `jazz` filter. -/
theorem chosenList_spec_witness :
    (chosenList (some chillPrefs) = SONGS.filter (fun s => s.mood == chillPrefs.mood) ∧
      (chosenList (some chillPrefs)).Sublist SONGS) ∧
    chosenList none = SONGS ∧
    chosenList (some jazzPrefs) = [] :=
  ⟨⟨((chosenList_spec (some chillPrefs)).1 chillPrefs rfl (by decide)).1,
    ((chosenList_spec (some chillPrefs)).1 chillPrefs rfl (by decide)).2.1⟩,
   (chosenList_spec none).2.1 rfl,
   ((chosenList_spec (some jazzPrefs)).1 jazzPrefs rfl (by decide)).2.2 (by decide)⟩

/-- C8: for every catalog song, the delayed auto-play attempt for
`play=<its id>` on a page with a playback element sets the element's source
to that song's URL and attempts playback (the start failure being
swallowed). -/
theorem attemptPlay_sets_src (song : Song) (m : MediaState) (hasNow : Bool)
    (hmem : song ∈ SONGS) :
    (attemptPlay (toString song.id) true hasNow m).src = some song.url ∧
    (attemptPlay (toString song.id) true hasNow m).playAttempted = true := by
  simp only [SONGS, List.mem_cons, List.not_mem_nil, or_false] at hmem
  rcases hmem with rfl | rfl | rfl | rfl | rfl <;> exact ⟨rfl, rfl⟩

/-- Witness for C8 at the id-3 song. -/
theorem attemptPlay_sets_src_witness :
    (attemptPlay (toString neonParty.id) true true
        { src := none, nowText := none, playAttempted := false }).src =
      some neonParty.url ∧
    (attemptPlay (toString neonParty.id) true true
        { src := none, nowText := none, playAttempted := false }).playAttempted = true :=
  attemptPlay_sets_src neonParty
    { src := none, nowText := none, playAttempted := false } true (by decide)

/-- C9: the profile page's clear-all control deletes the saved-songs
record, so a subsequent load returns the empty-list fallback and the
re-render shows the empty-state placeholder. -/
theorem clearSaved_spec (st : Store) :
    loadSavedSongs (clearSavedClick st) = [] ∧
    renderSavedSongs (clearSavedClick st) = ProfileView.placeholder :=
  ⟨rfl, rfl⟩

/-- C10: when the `play` query value matches no catalog song id (numeric or
not), the delayed auto-play attempt changes nothing: source, now-playing
text and playback state are left exactly as they were. -/
theorem attemptPlay_noop_on_unknown (playId : String) (hasAudio hasNow : Bool)
    (m : MediaState) (h : ∀ s ∈ SONGS, toString s.id ≠ playId) :
    attemptPlay playId hasAudio hasNow m = m := by
  have hidx : SONGS.findIdx? (fun s => toString s.id == playId) = none := by
    rw [List.findIdx?_eq_none_iff]
    intro x hx
    simpa using h x hx
  simp only [attemptPlay, findIndexJS, hidx]
  rfl

/-- Witness for C10 at the non-numeric query value "abc". -/
theorem attemptPlay_noop_on_unknown_witness :
    attemptPlay "abc" true true { src := none, nowText := none, playAttempted := false } =
      { src := none, nowText := none, playAttempted := false } :=
  attemptPlay_noop_on_unknown "abc" true true
    { src := none, nowText := none, playAttempted := false } (by decide)
